import Mathlib

/-!
Shallow embedding of the portfolio tracker (`src/main.rs`).

Machine integers (`u32`) are modelled as `Nat`, with the modulus `2 ^ 32`
applied explicitly wherever the Rust code performs `u32` arithmetic that can
wrap (the summary accumulation and subtraction use the release-mode wrapping
semantics that the specification itself describes).  Fallible operations are
modelled with `Option`; a Rust panic (an `unwrap` of an error or absent value)
is modelled as the `Except.error ()` outcome, so a function that can panic
returns `Except Unit α`.  The table-rendering layer is abstracted to the
semantic values each cell receives (the spec places the formatting itself out
of scope); `f32` arithmetic in `percent_increase` is modelled by exact rational
values extended with the IEEE non-finite outcomes (`inf`, `neginf`, `nan`), the
rounding of exactly representable results being the identity.
-/

set_option autoImplicit false

namespace PortfolioTracker

/-- Embeds `struct Asset` from the source: ticker, buy price, current price,
optional sell price (absent means the asset is still held), quantity.
All `u32` fields are carried as `Nat`. -/
structure Asset where
  ticker : String
  buy_price_cents : Nat
  current_price_cents : Nat
  sell_price_cents : Option Nat
  quantity : Nat
  deriving DecidableEq, Repr

/-- Embeds `struct Portfolio`: an ordered list of assets. -/
structure Portfolio where
  assets : List Asset
  deriving DecidableEq, Repr

/-- Embeds `is_asset_sold`: an asset is sold iff its sell price is present. -/
def is_asset_sold (asset : Asset) : Bool :=
  asset.sell_price_cents.isSome

/-- Embeds `is_asset_held`: the negation of `is_asset_sold`. -/
def is_asset_held (asset : Asset) : Bool :=
  ! is_asset_sold asset

/-- The `u32` modulus. -/
def u32Mod : Nat := 2 ^ 32

/-- Wrapping `u32` subtraction (release-mode semantics of `a - b` on `u32`),
for operands already reduced below `u32Mod`. -/
def u32sub (a b : Nat) : Nat := (a + u32Mod - b) % u32Mod

/-- Rust's `str::parse::<u32>`: an optional leading `+`, then one or more
ASCII digits, and the value must fit in 32 bits; anything else is `none`. -/
def parseU32 (s : String) : Option Nat :=
  let cs := match s.data with
    | '+' :: rest => rest
    | cs => cs
  if cs.isEmpty then none
  else if cs.all Char.isDigit then
    let v := cs.foldl (fun acc c => acc * 10 + (c.toNat - 48)) 0
    if v < u32Mod then some v else none
  else none

/-- Embeds `Option::unwrap`: succeeds on `some`, panics (modelled `Except.error ()`)
on `none`. -/
def unwrapE {α : Type} : Option α → Except Unit α
  | some a => Except.ok a
  | none => Except.error ()

/-! ### `f32` model for `percent_increase` -/

/-- Idealized `f32` value: an exact rational for finite values, plus the
IEEE non-finite outcomes.  Rounding of representable results is the
identity; only exactly representable values are reasoned about. -/
inductive F32 where
  | finite (q : ℚ)
  | inf
  | neginf
  | nan
  deriving DecidableEq, Repr

/-- Whether an `F32` value is finite. -/
def F32.isFinite : F32 → Bool
  | .finite _ => true
  | _ => false

/-- IEEE subtraction on the idealized `f32`. -/
def F32.sub : F32 → F32 → F32
  | .nan, _ => .nan
  | _, .nan => .nan
  | .finite a, .finite b => .finite (a - b)
  | .inf, .inf => .nan
  | .neginf, .neginf => .nan
  | .inf, _ => .inf
  | .neginf, _ => .neginf
  | .finite _, .inf => .neginf
  | .finite _, .neginf => .inf

/-- IEEE division on the idealized `f32`; a finite nonzero value divided by
zero gives a signed infinity, `0 / 0` gives `nan`. -/
def F32.div : F32 → F32 → F32
  | .nan, _ => .nan
  | _, .nan => .nan
  | .finite a, .finite b =>
      if b = 0 then
        if a = 0 then .nan
        else if 0 < a then .inf else .neginf
      else .finite (a / b)
  | .inf, .inf => .nan
  | .inf, .neginf => .nan
  | .neginf, .inf => .nan
  | .neginf, .neginf => .nan
  | .inf, .finite b => if b < 0 then .neginf else .inf
  | .neginf, .finite b => if b < 0 then .inf else .neginf
  | .finite _, .inf => .finite 0
  | .finite _, .neginf => .finite 0

/-- IEEE multiplication on the idealized `f32`. -/
def F32.mul : F32 → F32 → F32
  | .nan, _ => .nan
  | _, .nan => .nan
  | .finite a, .finite b => .finite (a * b)
  | .inf, .inf => .inf
  | .inf, .neginf => .neginf
  | .neginf, .inf => .neginf
  | .neginf, .neginf => .inf
  | .inf, .finite b =>
      if b = 0 then .nan else if 0 < b then .inf else .neginf
  | .neginf, .finite b =>
      if b = 0 then .nan else if 0 < b then .neginf else .inf
  | .finite a, .inf =>
      if a = 0 then .nan else if 0 < a then .inf else .neginf
  | .finite a, .neginf =>
      if a = 0 then .nan else if 0 < a then .neginf else .inf

/-- Embeds `percent_increase(old, new) = (new as f32 - old as f32) / old as f32 * 100`. -/
def percent_increase (old new : Nat) : F32 :=
  F32.mul (F32.div (F32.sub (.finite (new : ℚ)) (.finite (old : ℚ)))
                   (.finite (old : ℚ)))
          (.finite 100)

/-! ### `print_assets` (semantic row model) -/

/-- The semantic value a table cell receives: a money amount in cents
(rendered by `format_money`, presentation out of scope) or a literal text. -/
inductive Cell where
  | money (cents : Nat)
  | text (s : String)
  deriving DecidableEq, Repr

/-- The semantic content of one row of the `assets` table, in column order. -/
structure Row where
  ticker : String
  buy : Cell
  current : Cell
  percent : F32
  sell : Cell
  quantity : Nat
  deriving DecidableEq, Repr

/-- One row of `print_assets`: the current-price column shows the price only
when held; the percent-change column is computed on the current price when
held and on `sell_price_cents.unwrap()` otherwise; the sell-price column
shows `sell_price_cents.unwrap()` when sold.  Each `unwrap` can panic
(`Except.error ()`). -/
def asset_row (asset : Asset) : Except Unit Row := do
  let percentNew ←
    if is_asset_held asset then Except.ok asset.current_price_cents
    else unwrapE asset.sell_price_cents
  let sellCell ←
    if is_asset_sold asset then
      (unwrapE asset.sell_price_cents).map Cell.money
    else Except.ok (Cell.text "N/A (currently held)")
  pure
    { ticker := asset.ticker
      buy := Cell.money asset.buy_price_cents
      current :=
        if is_asset_held asset then Cell.money asset.current_price_cents
        else Cell.text "N/A (sold)"
      percent := percent_increase asset.buy_price_cents percentNew
      sell := sellCell
      quantity := asset.quantity }

/-- Embeds the loop of `print_assets`: one row per asset, in order; any panic propagates. -/
def print_assets_rows : List Asset → Except Unit (List Row)
  | [] => Except.ok []
  | asset :: rest => do
      let r ← asset_row asset
      let rs ← print_assets_rows rest
      pure (r :: rs)

/-! ### `print_summary` -/

/-- The accumulation loop of `print_summary`: starting from the given
`(net_buy_price, market_value)` accumulators, skip every asset whose sell
price is present and add `buy_price_cents * quantity` resp.
`current_price_cents * quantity` in wrapping `u32` arithmetic. -/
def summary_fold (acc : Nat × Nat) : List Asset → Nat × Nat
  | [] => acc
  | asset :: rest =>
      if asset.sell_price_cents.isSome then summary_fold acc rest
      else
        summary_fold
          ((acc.1 + (asset.buy_price_cents * asset.quantity) % u32Mod) % u32Mod,
           (acc.2 + (asset.current_price_cents * asset.quantity) % u32Mod) % u32Mod)
          rest

/-- The three values `print_summary` renders:
`(net_buy_price, market_value, unrealized_gains_losses)`, the last being the
`u32` subtraction `net_buy_price - market_value`. -/
def print_summary_values (assets : List Asset) : Nat × Nat × Nat :=
  let nm := summary_fold (0, 0) assets
  (nm.1, nm.2, u32sub nm.1 nm.2)

/-- Spec-side sum: `Σ buyPriceCents × quantity` over held assets, in exact
(unbounded) arithmetic. -/
def net_buy_price_spec (assets : List Asset) : Nat :=
  ((assets.filter is_asset_held).map
    (fun a => a.buy_price_cents * a.quantity)).sum

/-- Spec-side sum: `Σ currentPriceCents × quantity` over held assets, in exact
(unbounded) arithmetic. -/
def market_value_spec (assets : List Asset) : Nat :=
  ((assets.filter is_asset_held).map
    (fun a => a.current_price_cents * a.quantity)).sum

/-! ### Price lookup (`get_current_ticker_price`) -/

/-- Outcome of one Yahoo quote request for a ticker, as seen by
`get_current_ticker_price`: `Except.error ()` is an `Err` from
`get_latest_quotes` (ticker not found, transport failure); `Except.ok none`
is an `Ok` response whose `last_quote()` is unavailable (no quote bar);
`Except.ok (some c)` is a quote whose close converts to `c` cents
(the `(close * 100.0) as u32` conversion is abstracted to the resulting
cents value). -/
def QuoteResponse : Type := Except Unit (Option Nat)

/-- Embeds `get_current_ticker_price`: an `Err` from the connector yields `None`;
an `Ok` response is destructured with `last_quote().unwrap()`, which panics
(`Except.error ()`) when no quote bar is available, and otherwise yields
`Some` of the price in cents. -/
def get_current_ticker_price (resp : QuoteResponse) : Except Unit (Option Nat) :=
  match resp with
  | Except.error _ => Except.ok none
  | Except.ok none => Except.error ()
  | Except.ok (some c) => Except.ok (some c)

/-! ### `add_asset` -/

/-- The sell-price field computed inside `add_asset`: the exact literal
`"held"` means no sell price; anything else is `parse().unwrap()`, which
panics (`Except.error ()`) when the parse fails. -/
def sell_price_field (raw : String) : Except Unit (Option Nat) :=
  if raw = "held" then Except.ok none
  else (unwrapE (parseU32 raw)).map some

/-- Embeds `add_asset`: reads ticker, buy price, sell-price-or-held, quantity (the
numeric `read!()` inputs panic on parse failure), then looks the ticker up;
a `None` lookup yields `none` (no asset); on `Some` the asset is built,
parsing the sell-price input inside the closure. -/
def add_asset (symbol buyRaw sellRaw qtyRaw : String) (resp : QuoteResponse) :
    Except Unit (Option Asset) := do
  let buyPrice ← unwrapE (parseU32 buyRaw)
  let n ← unwrapE (parseU32 qtyRaw)
  let currentPrice ← get_current_ticker_price resp
  match currentPrice with
  | none => pure none
  | some x => do
      let sell ← sell_price_field sellRaw
      pure (some
        { ticker := symbol
          buy_price_cents := buyPrice
          current_price_cents := x
          sell_price_cents := sell
          quantity := n })

/-! ### Persistence (`dump_portfolio` / `load_portfolio`)

`serde_json::to_string` is the composition of the derived `Serialize`
mapping (determined by the repository's struct declarations) with
`serde_json`'s JSON text rendering; `serde_json::from_str` is the JSON
grammar parse followed by the derived `Deserialize` mapping.  The derived
mappings are embedded below over a JSON value type; the text layer (the
external `serde_json` grammar) is a parameter. -/

/-- JSON values as produced/consumed for this data model (all numbers that
occur are unsigned integers). -/
inductive Json where
  | null
  | num (n : Nat)
  | str (s : String)
  | arr (elems : List Json)
  | obj (fields : List (String × Json))

/-- The derived `Serialize` for `Asset`: an object with the five fields in
declaration order; `None` serializes as `null`. -/
def asset_to_json (a : Asset) : Json :=
  Json.obj
    [("ticker", Json.str a.ticker),
     ("buy_price_cents", Json.num a.buy_price_cents),
     ("current_price_cents", Json.num a.current_price_cents),
     ("sell_price_cents",
        match a.sell_price_cents with
        | none => Json.null
        | some v => Json.num v),
     ("quantity", Json.num a.quantity)]

/-- The derived `Serialize` for `Portfolio`. -/
def portfolio_to_json (p : Portfolio) : Json :=
  Json.obj [("assets", Json.arr (p.assets.map asset_to_json))]

/-- Field lookup in a JSON object (first occurrence of the key). -/
def getField (fields : List (String × Json)) (key : String) : Option Json :=
  (fields.find? (fun f => f.1 = key)).map (fun f => f.2)

/-- Deserializing a `u32`: an integer that fits in 32 bits. -/
def json_as_u32 : Json → Option Nat
  | Json.num n => if n < u32Mod then some n else none
  | _ => none

/-- Deserializing an `Option<u32>` field value: `null` is `None`. -/
def json_as_opt_u32 : Json → Option (Option Nat)
  | Json.null => some none
  | Json.num n => if n < u32Mod then some (some n) else none
  | _ => none

/-- The derived `Deserialize` for `Asset`: each required field must be
present with the right type; the `Option` field deserializes `null` (or a
missing key) as `None`. -/
def asset_from_json : Json → Option Asset
  | Json.obj fields => do
      let tickerJ ← getField fields "ticker"
      let ticker ← match tickerJ with
        | Json.str s => some s
        | _ => none
      let buy ← (getField fields "buy_price_cents").bind json_as_u32
      let current ← (getField fields "current_price_cents").bind json_as_u32
      let sell ← match getField fields "sell_price_cents" with
        | none => some none
        | some j => json_as_opt_u32 j
      let qty ← (getField fields "quantity").bind json_as_u32
      pure
        { ticker := ticker
          buy_price_cents := buy
          current_price_cents := current
          sell_price_cents := sell
          quantity := qty }
  | _ => none

/-- Deserializing the asset sequence: every element must deserialize, in
order. -/
def assets_from_json : List Json → Option (List Asset)
  | [] => some []
  | j :: rest => do
      let a ← asset_from_json j
      let l ← assets_from_json rest
      pure (a :: l)

/-- The derived `Deserialize` for `Portfolio`. -/
def portfolio_from_json : Json → Option Portfolio
  | Json.obj fields => do
      let assetsJ ← getField fields "assets"
      match assetsJ with
      | Json.arr elems => (assets_from_json elems).map Portfolio.mk
      | _ => none
  | _ => none

/-- Embeds `serde_json::from_str` for `Portfolio`: parse the text with the external
JSON grammar parser `jsonParse`, then apply the derived `Deserialize`. -/
def from_str (jsonParse : String → Option Json) (s : String) : Option Portfolio :=
  (jsonParse s).bind portfolio_from_json

/-- Embeds `load_portfolio`: read the file (`readResult` is the outcome of
`fs::read_to_string` for the prompted filename); a read error yields `None`,
otherwise the text is parsed as a portfolio, a parse error yielding `None`. -/
def load_portfolio (readResult : Except Unit String)
    (jsonParse : String → Option Json) : Option Portfolio :=
  match readResult with
  | Except.error _ => none
  | Except.ok raw => from_str jsonParse raw

/-! ### `refresh` and the command dispatcher -/

/-- An observable effect of one dispatched command: either some rendered
display (a table or the help text, contents out of scope) or a `println!`
message, with the source's literal text. -/
inductive Output where
  | display
  | msg (s : String)
  deriving DecidableEq, Repr

/-- The `refresh` loop body over the asset list: for each asset in order the
price lookup runs (its panic propagating); a successful lookup overwrites
`current_price_cents`, a failed one leaves the asset unchanged and prints
which ticker failed. -/
def refresh_assets (lookup : String → Except Unit (Option Nat)) :
    List Asset → Except Unit (List Asset × List Output)
  | [] => Except.ok ([], [])
  | asset :: rest => do
      let fetched ← lookup asset.ticker
      let res ← refresh_assets lookup rest
      match fetched with
      | some x =>
          pure ({ asset with current_price_cents := x } :: res.1, res.2)
      | none =>
          pure (asset :: res.1,
            Output.msg ("Error when fetching current price for ticker "
              ++ asset.ticker ++ ".") :: res.2)

/-- The environment one loop iteration interacts with: the prompted inputs
of `new`, the per-ticker quote responses, the file read for `load`, the
external JSON grammar parser, and the outcomes of serialization and file
write for `dump`. -/
structure Env where
  newTicker : String
  newBuyRaw : String
  newSellRaw : String
  newQtyRaw : String
  quotes : String → QuoteResponse
  loadFile : Except Unit String
  jsonParse : String → Option Json
  dumpSerializeOk : Bool
  dumpWriteOk : Bool

/-- The effects of the `dump` command: the portfolio is only read; an error
message is printed when serialization or the file write fails. -/
def dump_outputs (env : Env) : List Output :=
  if env.dumpSerializeOk && env.dumpWriteOk then []
  else [Output.msg "Error occurred when dumping. Portfolio not dumped."]

/-- One iteration of the `main` loop: dispatch on the input line (the
source's `match input.as_str()`), returning the next portfolio, the emitted
output, and whether the loop exits; a panic in a handler propagates. -/
def dispatch (input : String) (env : Env) (p : Portfolio) :
    Except Unit (Portfolio × List Output × Bool) :=
  if input = "assets" then do
    let _ ← print_assets_rows p.assets
    pure (p, [Output.display], false)
  else if input = "summary" then
    Except.ok (p, [Output.display], false)
  else if input = "new" then do
    let newAsset ← add_asset env.newTicker env.newBuyRaw env.newSellRaw
      env.newQtyRaw (env.quotes env.newTicker)
    match newAsset with
    | some x => pure ({ assets := p.assets ++ [x] }, [], false)
    | none =>
        pure (p,
          [Output.msg
            "An error occurred when fetching stock price. Ensure ticker is correct."],
          false)
  else if input = "help" then
    Except.ok (p, [Output.display], false)
  else if input = "load" then
    match load_portfolio env.loadFile env.jsonParse with
    | none =>
        Except.ok (p,
          [Output.msg "An error occurred when loading portfolio. Portfolio not loaded."],
          false)
    | some x => Except.ok (x, [], false)
  else if input = "dump" then
    Except.ok (p, dump_outputs env, false)
  else if input = "exit" then
    Except.ok (p, [], true)
  else if input = "refresh" then do
    let res ← refresh_assets
      (fun ticker => get_current_ticker_price (env.quotes ticker)) p.assets
    pure ({ assets := res.1 }, res.2, false)
  else if input = "" then
    Except.ok (p, [], false)
  else
    Except.ok (p,
      [Output.msg "Unknown command. Enter 'help' for a list of valid commands"],
      false)

/-! ### Lemmas about the summary computation -/

theorem u32Mod_pos : 0 < u32Mod := by norm_num [u32Mod]

theorem add_mod_mod_add (x b c M : Nat) :
    ((x + b % M) % M + c) % M = (x + b + c) % M := by
  conv_lhs => rw [Nat.mod_add_mod]
  have h := Nat.ModEq.add_right c (Nat.ModEq.add_left x (Nat.mod_modEq b M))
  simpa [Nat.ModEq] using h

theorem net_buy_price_spec_cons_held (a : Asset) (l : List Asset)
    (h : a.sell_price_cents.isSome = false) :
    net_buy_price_spec (a :: l) =
      a.buy_price_cents * a.quantity + net_buy_price_spec l := by
  simp [net_buy_price_spec, List.filter_cons, is_asset_held, is_asset_sold, h]

theorem net_buy_price_spec_cons_sold (a : Asset) (l : List Asset)
    (h : a.sell_price_cents.isSome = true) :
    net_buy_price_spec (a :: l) = net_buy_price_spec l := by
  simp [net_buy_price_spec, List.filter_cons, is_asset_held, is_asset_sold, h]

theorem market_value_spec_cons_held (a : Asset) (l : List Asset)
    (h : a.sell_price_cents.isSome = false) :
    market_value_spec (a :: l) =
      a.current_price_cents * a.quantity + market_value_spec l := by
  simp [market_value_spec, List.filter_cons, is_asset_held, is_asset_sold, h]

theorem market_value_spec_cons_sold (a : Asset) (l : List Asset)
    (h : a.sell_price_cents.isSome = true) :
    market_value_spec (a :: l) = market_value_spec l := by
  simp [market_value_spec, List.filter_cons, is_asset_held, is_asset_sold, h]

theorem summary_fold_spec (assets : List Asset) :
    ∀ x y : Nat, x < u32Mod → y < u32Mod →
      summary_fold (x, y) assets =
        ((x + net_buy_price_spec assets) % u32Mod,
         (y + market_value_spec assets) % u32Mod) := by
  induction assets with
  | nil =>
      intro x y hx hy
      simp [summary_fold, net_buy_price_spec, market_value_spec,
        Nat.mod_eq_of_lt hx, Nat.mod_eq_of_lt hy]
  | cons a l ih =>
      intro x y hx hy
      by_cases h : a.sell_price_cents.isSome
      · simp only [summary_fold, if_pos h]
        rw [ih x y hx hy, net_buy_price_spec_cons_sold a l h,
          market_value_spec_cons_sold a l h]
      · simp only [summary_fold, if_neg h]
        rw [ih _ _ (Nat.mod_lt _ u32Mod_pos) (Nat.mod_lt _ u32Mod_pos),
          net_buy_price_spec_cons_held a l (by simpa using h),
          market_value_spec_cons_held a l (by simpa using h)]
        refine Prod.ext ?_ ?_
        · simp only []
          rw [add_mod_mod_add]
          ring_nf
        · simp only []
          rw [add_mod_mod_add]
          ring_nf

theorem print_summary_values_spec (assets : List Asset)
    (hn : net_buy_price_spec assets < u32Mod)
    (hm : market_value_spec assets < u32Mod) :
    print_summary_values assets =
      (net_buy_price_spec assets, market_value_spec assets,
       u32sub (net_buy_price_spec assets) (market_value_spec assets)) := by
  unfold print_summary_values
  rw [summary_fold_spec assets 0 0 u32Mod_pos u32Mod_pos]
  simp [Nat.mod_eq_of_lt hn, Nat.mod_eq_of_lt hm]

theorem u32sub_of_le (a b : Nat) (ha : a < u32Mod) (hba : b ≤ a) :
    u32sub a b = a - b := by
  unfold u32sub
  have h1 : a + u32Mod - b = u32Mod + (a - b) := by omega
  rw [h1, Nat.add_mod_left, Nat.mod_eq_of_lt (by omega)]

theorem u32sub_of_gt (a b : Nat) (hab : a < b) (hb : b < u32Mod) :
    u32sub a b = u32Mod + a - b := by
  unfold u32sub
  have hM : 0 < u32Mod := u32Mod_pos
  have h1 : a + u32Mod - b = u32Mod + a - b := by omega
  rw [h1]
  exact Nat.mod_eq_of_lt (by omega)

theorem summary_skips_sold (assets : List Asset) :
    print_summary_values assets =
      print_summary_values (assets.filter is_asset_held) := by
  unfold print_summary_values
  rw [summary_fold_spec assets 0 0 u32Mod_pos u32Mod_pos,
    summary_fold_spec (assets.filter is_asset_held) 0 0 u32Mod_pos u32Mod_pos]
  have h1 : net_buy_price_spec (assets.filter is_asset_held) =
      net_buy_price_spec assets := by
    simp [net_buy_price_spec, List.filter_filter]
  have h2 : market_value_spec (assets.filter is_asset_held) =
      market_value_spec assets := by
    simp [market_value_spec, List.filter_filter]
  rw [h1, h2]

/-- Claim C1: the summary computation iterates only over held assets
(skipping every sold asset), and — whenever the held sums are
`u32`-representable and there is no gain — computes `netBuyPrice` as
`Σ buyPriceCents × quantity` over held assets, `marketValue` as
`Σ currentPriceCents × quantity` over held assets, and
`unrealizedGainLoss` as `netBuyPrice - marketValue`. -/
theorem summary_held_sums (assets : List Asset)
    (hn : net_buy_price_spec assets < u32Mod)
    (hm : market_value_spec assets < u32Mod)
    (hle : market_value_spec assets ≤ net_buy_price_spec assets) :
    print_summary_values assets =
      print_summary_values (assets.filter is_asset_held) ∧
    (print_summary_values assets).1 = net_buy_price_spec assets ∧
    (print_summary_values assets).2.1 = market_value_spec assets ∧
    (print_summary_values assets).2.2 =
      net_buy_price_spec assets - market_value_spec assets := by
  refine ⟨summary_skips_sold assets, ?_, ?_, ?_⟩
  · rw [print_summary_values_spec assets hn hm]
  · rw [print_summary_values_spec assets hn hm]
  · rw [print_summary_values_spec assets hn hm]
    exact u32sub_of_le _ _ hn hle

/-- A sample portfolio contents for concrete instantiations: one held asset
bought at a loss, one sold asset. -/
def sample_assets : List Asset :=
  [{ ticker := "AAA", buy_price_cents := 200, current_price_cents := 50,
     sell_price_cents := none, quantity := 2 },
   { ticker := "CCC", buy_price_cents := 300, current_price_cents := 10,
     sell_price_cents := some 400, quantity := 3 }]

/-- Concrete instantiation of `summary_held_sums` on `sample_assets`. -/
theorem summary_held_sums_witness :
    (net_buy_price_spec sample_assets < u32Mod ∧
     market_value_spec sample_assets < u32Mod ∧
     market_value_spec sample_assets ≤ net_buy_price_spec sample_assets) ∧
    (print_summary_values sample_assets).1 = net_buy_price_spec sample_assets ∧
    (print_summary_values sample_assets).2.2 =
      net_buy_price_spec sample_assets - market_value_spec sample_assets :=
  ⟨⟨by decide, by decide, by decide⟩,
   (summary_held_sums sample_assets (by decide) (by decide) (by decide)).2.1,
   (summary_held_sums sample_assets (by decide) (by decide) (by decide)).2.2.2⟩

/-- Claim C2: whenever the held market value exceeds the held net buy price
(a gain) and both sums are `u32`-representable, the summary's subtraction is
performed in wrapping unsigned 32-bit arithmetic: the result is
`2^32 + netBuyPrice - marketValue`, not the signed mathematical difference. -/
theorem summary_gain_underflow (assets : List Asset)
    (hn : net_buy_price_spec assets < u32Mod)
    (hm : market_value_spec assets < u32Mod)
    (hgain : net_buy_price_spec assets < market_value_spec assets) :
    (print_summary_values assets).2.2 =
      u32Mod + net_buy_price_spec assets - market_value_spec assets ∧
    ((print_summary_values assets).2.2 : ℤ) ≠
      (net_buy_price_spec assets : ℤ) - (market_value_spec assets : ℤ) := by
  have hval : (print_summary_values assets).2.2 =
      u32Mod + net_buy_price_spec assets - market_value_spec assets := by
    rw [print_summary_values_spec assets hn hm]
    exact u32sub_of_gt _ _ hgain hm
  refine ⟨hval, ?_⟩
  rw [hval]
  have h32 : 0 < u32Mod := u32Mod_pos
  push_cast [Nat.cast_sub (by omega : market_value_spec assets ≤
    u32Mod + net_buy_price_spec assets)]
  omega

/-- A single held asset whose market value exceeds its cost basis. -/
def gain_assets : List Asset :=
  [{ ticker := "AAA", buy_price_cents := 100, current_price_cents := 150,
     sell_price_cents := none, quantity := 1 }]

/-- Concrete instantiation of `summary_gain_underflow`: a 100-cent buy now
worth 150 cents makes the summary show `2^32 - 50` cents. -/
theorem summary_gain_underflow_witness :
    (net_buy_price_spec gain_assets < u32Mod ∧
     market_value_spec gain_assets < u32Mod ∧
     net_buy_price_spec gain_assets < market_value_spec gain_assets) ∧
    (print_summary_values gain_assets).2.2 =
      u32Mod + net_buy_price_spec gain_assets - market_value_spec gain_assets :=
  ⟨⟨by decide, by decide, by decide⟩,
   (summary_gain_underflow gain_assets (by decide) (by decide) (by decide)).1⟩

/-! ### `new`, lookup failure paths, and `print_assets` safety -/

/-- A default interaction environment for concrete instantiations: the
quote lookup succeeds with 123 cents for every ticker, the `new` inputs are
a held asset of 2 units bought for 100 cents total, and the `load` file
read fails. -/
def sample_env : Env :=
  { newTicker := "VOO"
    newBuyRaw := "100"
    newSellRaw := "held"
    newQtyRaw := "2"
    quotes := fun _ => Except.ok (some 123)
    loadFile := Except.error ()
    jsonParse := fun _ => none
    dumpSerializeOk := true
    dumpWriteOk := true }

/-- Claim C3 (divergence witness): in the `new` command, the sell-price input
`"held"` yields an asset with no sell price and `"4000"` yields
`sellPriceCents = 4000`, both appended to the portfolio; but the non-numeric
input `"abc"` makes the process panic (`parse().unwrap()` on an `Err`),
rather than being reported with the portfolio left unchanged. -/
theorem new_sell_price_parsing :
    dispatch "new" sample_env ⟨[]⟩ =
      Except.ok
        (⟨[{ ticker := "VOO", buy_price_cents := 100, current_price_cents := 123,
             sell_price_cents := none, quantity := 2 }]⟩, [], false) ∧
    dispatch "new" { sample_env with newSellRaw := "4000" } ⟨[]⟩ =
      Except.ok
        (⟨[{ ticker := "VOO", buy_price_cents := 100, current_price_cents := 123,
             sell_price_cents := some 4000, quantity := 2 }]⟩, [], false) ∧
    dispatch "new" { sample_env with newSellRaw := "abc" } ⟨[]⟩ =
      Except.error () :=
  ⟨rfl, rfl, rfl⟩

/-- Claim C4 (divergence witness): a transport/not-found failure of the quote
request is returned as `None`, and a successful quote is returned as `Some`;
but an `Ok` response with no quote bar available makes
`last_quote().unwrap()` panic instead of producing the typed `None`. -/
theorem lookup_failure_paths :
    get_current_ticker_price (Except.error ()) = Except.ok none ∧
    get_current_ticker_price (Except.ok (some 5000)) = Except.ok (some 5000) ∧
    get_current_ticker_price (Except.ok none) = Except.error () :=
  ⟨rfl, rfl, rfl⟩

/-- The row `print_assets` produces for an asset when no unwrap panics:
current-price column and percent-change argument chosen by the held/sold
state, sell-price column showing the recorded sell price when sold. -/
def asset_row_total (a : Asset) : Row :=
  { ticker := a.ticker
    buy := Cell.money a.buy_price_cents
    current :=
      if is_asset_held a then Cell.money a.current_price_cents
      else Cell.text "N/A (sold)"
    percent := percent_increase a.buy_price_cents
      (match a.sell_price_cents with
       | none => a.current_price_cents
       | some v => v)
    sell :=
      match a.sell_price_cents with
      | none => Cell.text "N/A (currently held)"
      | some v => Cell.money v
    quantity := a.quantity }

theorem asset_row_eq (a : Asset) : asset_row a = Except.ok (asset_row_total a) := by
  match h : a.sell_price_cents with
  | none =>
      have hheld : is_asset_held a = true := by
        simp [is_asset_held, is_asset_sold, h]
      have hsold : is_asset_sold a = false := by
        simp [is_asset_sold, h]
      simp [asset_row, asset_row_total, hheld, hsold, h, unwrapE,
        Bind.bind, Except.bind, Pure.pure, Except.pure]
  | some v =>
      have hheld : is_asset_held a = false := by
        simp [is_asset_held, is_asset_sold, h]
      have hsold : is_asset_sold a = true := by
        simp [is_asset_sold, h]
      simp [asset_row, asset_row_total, hheld, hsold, h, unwrapE, Except.map,
        Bind.bind, Except.bind, Pure.pure, Except.pure]

/-- Claim C10: rendering the asset list never reaches an `unwrap` of an
absent sell price — for every portfolio, `print_assets` computes a row for
every asset without panicking. -/
theorem print_assets_no_panic (assets : List Asset) :
    print_assets_rows assets = Except.ok (assets.map asset_row_total) := by
  induction assets with
  | nil => rfl
  | cons a l ih =>
      simp [print_assets_rows, asset_row_eq a, ih, Bind.bind, Except.bind, Pure.pure, Except.pure]

/-! ### Percent change (claim C8) -/

/-- Claim C8: `percent_increase(old, new)` is `(new - old) / old * 100` (in the
idealized exact `f32` model), with `percent_increase 100 150 = 50` and
`percent_increase 100 50 = -50`; `old = 0` yields a non-finite value rather
than crashing; and in the asset table the `new` argument is the current price
for a held asset and the recorded sell price for a sold one. -/
theorem percent_change_spec :
    (∀ old new : Nat, old ≠ 0 →
      percent_increase old new =
        F32.finite ((((new : ℚ) - (old : ℚ)) / (old : ℚ)) * 100)) ∧
    percent_increase 100 150 = F32.finite 50 ∧
    percent_increase 100 50 = F32.finite (-50) ∧
    (∀ new : Nat, (percent_increase 0 new).isFinite = false) ∧
    (∀ (a : Asset) (r : Row), asset_row a = Except.ok r →
      is_asset_held a = true →
      r.percent = percent_increase a.buy_price_cents a.current_price_cents) ∧
    (∀ (a : Asset) (r : Row) (v : Nat), asset_row a = Except.ok r →
      a.sell_price_cents = some v →
      r.percent = percent_increase a.buy_price_cents v) := by
  have hgen : ∀ old new : Nat, old ≠ 0 →
      percent_increase old new =
        F32.finite ((((new : ℚ) - (old : ℚ)) / (old : ℚ)) * 100) := by
    intro old new h
    have hq : (old : ℚ) ≠ 0 := Nat.cast_ne_zero.mpr h
    simp [percent_increase, F32.sub, F32.div, F32.mul, hq]
  refine ⟨hgen, ?_, ?_, ?_, ?_, ?_⟩
  · rw [hgen 100 150 (by norm_num)]
    norm_num
  · rw [hgen 100 50 (by norm_num)]
    norm_num
  · intro new
    by_cases h0 : (new : ℚ) = 0
    · simp [percent_increase, F32.sub, F32.div, F32.mul, F32.isFinite, h0]
    · have hpos : (0 : ℚ) < (new : ℚ) :=
        lt_of_le_of_ne (Nat.cast_nonneg new) (Ne.symm h0)
      simp [percent_increase, F32.sub, F32.div, F32.mul, F32.isFinite, h0,
        hpos, not_lt.mpr hpos.le]
  · intro a r h hheld
    have hnone : a.sell_price_cents = none := by
      cases hsc : a.sell_price_cents with
      | none => rfl
      | some v => simp [is_asset_held, is_asset_sold, hsc] at hheld
    rw [asset_row_eq a] at h
    simp only [Except.ok.injEq] at h
    rw [← h]
    simp [asset_row_total, hnone]
  · intro a r v h hv
    rw [asset_row_eq a] at h
    simp only [Except.ok.injEq] at h
    rw [← h]
    simp [asset_row_total, hv]

/-- Concrete instantiation of `percent_change_spec`: the formula at
`(200, 100)`, and the held-asset percent argument on a held sample asset. -/
theorem percent_change_spec_witness :
    percent_increase 200 100 =
      F32.finite ((((100 : ℚ) - (200 : ℚ)) / (200 : ℚ)) * 100) ∧
    (asset_row_total
      { ticker := "AAA", buy_price_cents := 100, current_price_cents := 150,
        sell_price_cents := none, quantity := 1 }).percent =
      percent_increase 100 150 :=
  ⟨percent_change_spec.1 200 100 (by norm_num),
   percent_change_spec.2.2.2.2.1
     { ticker := "AAA", buy_price_cents := 100, current_price_cents := 150,
       sell_price_cents := none, quantity := 1 }
     (asset_row_total
       { ticker := "AAA", buy_price_cents := 100, current_price_cents := 150,
         sell_price_cents := none, quantity := 1 })
     (asset_row_eq _) rfl⟩

/-! ### `refresh` (claim C7) -/

theorem dispatch_refresh_eq (env : Env) (p : Portfolio) :
    dispatch "refresh" env p =
      (refresh_assets (fun t => get_current_ticker_price (env.quotes t))
        p.assets).bind
        (fun res => Except.ok (⟨res.1⟩, res.2, false)) := rfl

/-- Claim C7: `refresh` processes every asset in order; a successful lookup
overwrites `currentPriceCents` and a failed one leaves the asset unchanged
and reports its ticker, the loop continuing regardless — stated over the
loop body, and over the dispatched command for any environment whose quote
responses never panic. -/
theorem refresh_per_asset :
    (∀ (lk : String → Option Nat) (assets : List Asset),
      refresh_assets (fun t => Except.ok (lk t)) assets =
        Except.ok
          (assets.map (fun a =>
             match lk a.ticker with
             | some x => { a with current_price_cents := x }
             | none => a),
           (assets.filter (fun a => (lk a.ticker).isNone)).map
             (fun a => Output.msg
               ("Error when fetching current price for ticker "
                 ++ a.ticker ++ ".")))) ∧
    (∀ (env : Env) (p : Portfolio) (lk : String → Option Nat),
      (∀ t, get_current_ticker_price (env.quotes t) = Except.ok (lk t)) →
      dispatch "refresh" env p =
        Except.ok
          (⟨p.assets.map (fun a =>
              match lk a.ticker with
              | some x => { a with current_price_cents := x }
              | none => a)⟩,
           (p.assets.filter (fun a => (lk a.ticker).isNone)).map
             (fun a => Output.msg
               ("Error when fetching current price for ticker "
                 ++ a.ticker ++ ".")),
           false)) := by
  have hloop : ∀ (lk : String → Option Nat) (assets : List Asset),
      refresh_assets (fun t => Except.ok (lk t)) assets =
        Except.ok
          (assets.map (fun a =>
             match lk a.ticker with
             | some x => { a with current_price_cents := x }
             | none => a),
           (assets.filter (fun a => (lk a.ticker).isNone)).map
             (fun a => Output.msg
               ("Error when fetching current price for ticker "
                 ++ a.ticker ++ "."))) := by
    intro lk assets
    induction assets with
    | nil => rfl
    | cons a l ih =>
        cases hlk : lk a.ticker with
        | some x =>
            simp [refresh_assets, Bind.bind, Except.bind, Pure.pure,
              Except.pure, ih, hlk, List.filter_cons]
        | none =>
            simp [refresh_assets, Bind.bind, Except.bind, Pure.pure,
              Except.pure, ih, hlk, List.filter_cons]
  refine ⟨hloop, ?_⟩
  intro env p lk h
  rw [dispatch_refresh_eq env p,
    show (fun t => get_current_ticker_price (env.quotes t)) =
      (fun t => Except.ok (lk t)) from funext h,
    hloop lk p.assets]
  rfl

/-- An environment whose quote service fails for ticker `"BBB"` and returns
777 cents for every other ticker. -/
def refresh_env : Env :=
  { sample_env with
    quotes := fun t => if t = "BBB" then Except.error () else Except.ok (some 777) }

/-- The pure per-ticker lookup outcome of `refresh_env`. -/
def refresh_lookup (t : String) : Option Nat :=
  if t = "BBB" then none else some 777

/-- Concrete instantiation of `refresh_per_asset`: with three assets and the
`"BBB"` lookup failing, the other two prices are updated and exactly one
failure is reported. -/
theorem refresh_per_asset_witness :
    dispatch "refresh" refresh_env
      ⟨[{ ticker := "AAA", buy_price_cents := 100, current_price_cents := 150,
          sell_price_cents := none, quantity := 1 },
        { ticker := "BBB", buy_price_cents := 200, current_price_cents := 50,
          sell_price_cents := none, quantity := 2 },
        { ticker := "CCC", buy_price_cents := 300, current_price_cents := 10,
          sell_price_cents := some 400, quantity := 3 }]⟩ =
      Except.ok
        (⟨[{ ticker := "AAA", buy_price_cents := 100, current_price_cents := 777,
             sell_price_cents := none, quantity := 1 },
           { ticker := "BBB", buy_price_cents := 200, current_price_cents := 50,
             sell_price_cents := none, quantity := 2 },
           { ticker := "CCC", buy_price_cents := 300, current_price_cents := 777,
             sell_price_cents := some 400, quantity := 3 }]⟩,
         [Output.msg "Error when fetching current price for ticker BBB."],
         false) := by
  rw [refresh_per_asset.2 refresh_env _ refresh_lookup
    (by
      intro t
      by_cases ht : t = "BBB" <;>
        simp [refresh_env, refresh_lookup, sample_env, get_current_ticker_price, ht])]
  rfl

/-! ### The dispatcher on unknown and blank input (claim C9) -/

/-- Claim C9: any input line that is none of the recognized commands leaves
the portfolio unchanged and emits the unknown-command message; a blank line
is a silent no-op, also leaving the portfolio unchanged. -/
theorem dispatcher_unknown_and_blank :
    (∀ (input : String) (env : Env) (p : Portfolio),
      input ≠ "assets" → input ≠ "summary" → input ≠ "new" → input ≠ "help" →
      input ≠ "load" → input ≠ "dump" → input ≠ "exit" → input ≠ "refresh" →
      input ≠ "" →
      dispatch input env p =
        Except.ok
          (p, [Output.msg "Unknown command. Enter 'help' for a list of valid commands"],
           false)) ∧
    (∀ (env : Env) (p : Portfolio),
      dispatch "" env p = Except.ok (p, [], false)) := by
  constructor
  · intro input env p h1 h2 h3 h4 h5 h6 h7 h8 h9
    simp [dispatch, h1, h2, h3, h4, h5, h6, h7, h8, h9]
  · intro env p
    rfl

/-- Concrete instantiation of `dispatcher_unknown_and_blank` on the unknown
command `"foo"`. -/
theorem dispatcher_unknown_and_blank_witness :
    dispatch "foo" sample_env ⟨sample_assets⟩ =
      Except.ok
        (⟨sample_assets⟩,
         [Output.msg "Unknown command. Enter 'help' for a list of valid commands"],
         false) :=
  dispatcher_unknown_and_blank.1 "foo" sample_env ⟨sample_assets⟩
    (by decide) (by decide) (by decide) (by decide) (by decide) (by decide)
    (by decide) (by decide) (by decide)

/-! ### `load` (claim C6) -/

theorem dispatch_load_eq (env : Env) (p : Portfolio) :
    dispatch "load" env p =
      match load_portfolio env.loadFile env.jsonParse with
      | none =>
          Except.ok (p,
            [Output.msg "An error occurred when loading portfolio. Portfolio not loaded."],
            false)
      | some x => Except.ok (x, [], false) := rfl

/-- Claim C6: a failed file read makes `load_portfolio` fail; a failed
`load_portfolio` makes the `load` command report an error and leave the
active portfolio unchanged; a successful one replaces the entire portfolio
with the parsed result. -/
theorem load_replaces_or_preserves :
    (∀ jp : String → Option Json, load_portfolio (Except.error ()) jp = none) ∧
    (∀ (env : Env) (p : Portfolio),
      load_portfolio env.loadFile env.jsonParse = none →
      dispatch "load" env p =
        Except.ok (p,
          [Output.msg "An error occurred when loading portfolio. Portfolio not loaded."],
          false)) ∧
    (∀ (env : Env) (p x : Portfolio),
      load_portfolio env.loadFile env.jsonParse = some x →
      dispatch "load" env p = Except.ok (x, [], false)) := by
  refine ⟨fun _ => rfl, ?_, ?_⟩
  · intro env p h
    rw [dispatch_load_eq env p, h]
  · intro env p x h
    rw [dispatch_load_eq env p, h]

/-- Concrete instantiation of `load_replaces_or_preserves`: in `sample_env`
the file read fails (a non-existent file), and the `load` command reports
the error and leaves the portfolio unchanged. -/
theorem load_replaces_or_preserves_witness :
    dispatch "load" sample_env ⟨sample_assets⟩ =
      Except.ok
        (⟨sample_assets⟩,
         [Output.msg "An error occurred when loading portfolio. Portfolio not loaded."],
         false) :=
  load_replaces_or_preserves.2.1 sample_env ⟨sample_assets⟩
    (load_replaces_or_preserves.1 sample_env.jsonParse)

/-! ### Dump-then-load round trip (claim C5) -/

theorem asset_round_trip (a : Asset)
    (hb : a.buy_price_cents < u32Mod) (hc : a.current_price_cents < u32Mod)
    (hq : a.quantity < u32Mod) (hs : a.sell_price_cents.getD 0 < u32Mod) :
    asset_from_json (asset_to_json a) = some a := by
  obtain ⟨t, b, c, sp, q⟩ := a
  simp only at hb hc hq hs
  cases sp with
  | none =>
      simp [asset_to_json, asset_from_json, getField, List.find?,
        json_as_u32, json_as_opt_u32, Option.bind, hb, hc, hq]
  | some v =>
      have hv : v < u32Mod := by simpa using hs
      simp [asset_to_json, asset_from_json, getField, List.find?,
        json_as_u32, json_as_opt_u32, Option.bind, hb, hc, hq, hv]

theorem assets_round_trip (l : List Asset)
    (h : ∀ a ∈ l, a.buy_price_cents < u32Mod ∧ a.current_price_cents < u32Mod ∧
      a.quantity < u32Mod ∧ a.sell_price_cents.getD 0 < u32Mod) :
    assets_from_json (l.map asset_to_json) = some l := by
  induction l with
  | nil => rfl
  | cons a rest ih =>
      have ha := h a (List.mem_cons_self a rest)
      simp [assets_from_json, Option.bind,
        asset_round_trip a ha.1 ha.2.1 ha.2.2.1 ha.2.2.2,
        ih (fun x hx => h x (List.mem_cons_of_mem a hx))]

theorem portfolio_round_trip (p : Portfolio)
    (h : ∀ a ∈ p.assets, a.buy_price_cents < u32Mod ∧
      a.current_price_cents < u32Mod ∧
      a.quantity < u32Mod ∧ a.sell_price_cents.getD 0 < u32Mod) :
    portfolio_from_json (portfolio_to_json p) = some p := by
  obtain ⟨l⟩ := p
  simp [portfolio_to_json, portfolio_from_json, getField, List.find?,
    Option.bind, assets_round_trip l h]

/-- Claim C5: serializing a portfolio (whose fields are `u32`-representable)
and parsing the produced text back — with the external JSON grammar layer
behaving as an inverse on the produced document — yields the same portfolio,
field for field, order preserved. -/
theorem dump_load_round_trip (render : Json → String)
    (jsonParse : String → Option Json) (p : Portfolio)
    (hparse : jsonParse (render (portfolio_to_json p)) =
      some (portfolio_to_json p))
    (hwf : ∀ a ∈ p.assets, a.buy_price_cents < u32Mod ∧
      a.current_price_cents < u32Mod ∧
      a.quantity < u32Mod ∧ a.sell_price_cents.getD 0 < u32Mod) :
    from_str jsonParse (render (portfolio_to_json p)) = some p := by
  unfold from_str
  rw [hparse]
  simpa [Option.bind] using portfolio_round_trip p hwf

/-- Concrete instantiation of `dump_load_round_trip` on `sample_assets`,
with a grammar layer that maps the dumped document to its JSON value. -/
theorem dump_load_round_trip_witness :
    from_str (fun _ => some (portfolio_to_json ⟨sample_assets⟩))
      ((fun _ => "dumped.json") (portfolio_to_json ⟨sample_assets⟩)) =
      some ⟨sample_assets⟩ :=
  dump_load_round_trip (fun _ => "dumped.json")
    (fun _ => some (portfolio_to_json ⟨sample_assets⟩)) ⟨sample_assets⟩
    rfl (by decide)

end PortfolioTracker
